import Mathlib

/-
  A verification development for the pixi-effects-camera library.

  The library is embedded shallowly:
  - numbers are modelled as rationals (the code performs only field
    arithmetic and comparisons on them);
  - the duration option is modelled as WithTop Rat so that the unbounded
    duration Infinity is representable;
  - readings of performance.now() are supplied as explicit inputs, one per
    registry tick (the code reads the clock up to three times inside one
    filter callback, always within the same tick);
  - the value returned by an update method (boolean or undefined) is
    modelled as Option Bool, with none standing for undefined;
  - the Math.random() draws of the shake effect are supplied as inputs.
-/

/-- A fragment of the JavaScript value universe, enough to model the strict
equality comparison (=== true) that Camera.update applies to the result of
an endCondition callback. -/
inductive JSVal where
  | bool : Bool → JSVal
  | num : ℚ → JSVal
  | str : String → JSVal
  | undef : JSVal
  | null : JSVal
deriving DecidableEq

/-- Options record held by a constructed effect (models/CameraEffectOptions
after the defaulting performed in the CameraEffect constructor). -/
structure CameraEffectOptions where
  duration : WithTop ℚ
  endCondition : Option (ℚ → JSVal)

/-- The options argument as it may arrive at the CameraEffect constructor at
run time: the whole object may be undefined, and the duration field itself
may be undefined. -/
structure CameraEffectOptionsArg where
  duration : Option (WithTop ℚ)
  endCondition : Option (ℚ → JSVal)

/-- Models the defaulting in the CameraEffect constructor:
duration becomes (options && options.duration) || 0, where || replaces a
falsy left operand (here: an absent options object, an undefined duration,
or the number 0) by 0; endCondition becomes
(options && options.endCondition) || undefined. -/
def mkCameraEffectOptions (o : Option CameraEffectOptionsArg) : CameraEffectOptions :=
  { duration :=
      match o.bind (fun a => a.duration) with
      | none => 0
      | some d => if d = 0 then 0 else d
    endCondition := o.bind (fun a => a.endCondition) }

/-- An effect as seen by the camera: the fields of the abstract class
CameraEffect together with the dynamically dispatched methods. The scene
state an effect mutates is abstracted as σ. The update method receives the
started and last-ran timestamps of the effect, the scene state and the
frame delta, and returns the new scene state together with the JavaScript
return value of update (none models undefined). The ref field models the
JavaScript object reference of the effect, which removeEffect compares
with !==. -/
structure CameraEffect (σ : Type) where
  ref : ℕ
  startedTimeStamp : ℚ
  lastRanTimeStamp : ℚ
  options : CameraEffectOptions
  update : ℚ → ℚ → σ → ℚ → σ × Option Bool
  onEnd : Option (σ → σ)

/-- The CameraEffect constructor: both timestamps start at 0 and the options
are defaulted by mkCameraEffectOptions. -/
def CameraEffect.make {σ : Type} (ref : ℕ) (o : Option CameraEffectOptionsArg)
    (update : ℚ → ℚ → σ → ℚ → σ × Option Bool) (onEnd : Option (σ → σ)) :
    CameraEffect σ :=
  { ref := ref
    startedTimeStamp := 0
    lastRanTimeStamp := 0
    options := mkCameraEffectOptions o
    update := update
    onEnd := onEnd }

/-- First step of the Camera.update filter callback: when startedTimeStamp
is 0 it is stamped with the current clock reading. -/
def stampStart {σ : Type} (now : ℚ) (e : CameraEffect σ) : CameraEffect σ :=
  if e.startedTimeStamp = 0 then { e with startedTimeStamp := now } else e

/-- Runs the optional onEnd hook of an effect on the scene state. -/
def runOnEnd {σ : Type} (e : CameraEffect σ) (w : σ) : σ :=
  match e.onEnd with
  | some f => f w
  | none => w

/-- The duration check of Camera.update:
currentTimestamp - effect.startedTimeStamp >= effect.options.duration. -/
def durationReached {σ : Type} (now : ℚ) (e : CameraEffect σ) : Bool :=
  decide (e.options.duration ≤ ((now - e.startedTimeStamp : ℚ) : WithTop ℚ))

/-- The end condition check of Camera.update:
effect.options.endCondition && effect.options.endCondition(delta) === true.
An absent callback short-circuits to a falsy value; a present callback is
compared strictly against the boolean true. -/
def endConditionReached {σ : Type} (e : CameraEffect σ) (delta : ℚ) : Bool :=
  match e.options.endCondition with
  | none => false
  | some f => decide (f delta = JSVal.bool true)

/-- The body of the filter callback of Camera.update, for one effect: the
result is the keep decision of the filter, the effect object after the
mutations performed this tick, and the new scene state. -/
def processEffect {σ : Type} (now delta : ℚ) (e : CameraEffect σ) (w : σ) :
    Bool × CameraEffect σ × σ :=
  let e0 := stampStart now e
  let uw := e0.update e0.startedTimeStamp e0.lastRanTimeStamp w delta
  if uw.2 = some false then
    (false, e0, runOnEnd e0 uw.1)
  else
    let e1 := { e0 with lastRanTimeStamp := now }
    if durationReached now e1 || endConditionReached e1 delta then
      (false, e1, runOnEnd e1 uw.1)
    else
      (true, e1, uw.1)

/-- The camera: an ordered list of active effects. -/
structure Camera (σ : Type) where
  activeEffects : List (CameraEffect σ)

/-- The effects getter of the camera. -/
def Camera.effects {σ : Type} (c : Camera σ) : List (CameraEffect σ) :=
  c.activeEffects

/-- addEffect appends: this._effects = [...this.effects, effect]. -/
def Camera.addEffect {σ : Type} (c : Camera σ) (e : CameraEffect σ) : Camera σ :=
  ⟨c.effects ++ [e]⟩

/-- removeEffect keeps exactly the entries that are not reference-identical
to the argument: this._effects.filter((e) => e !== effect). The method
reads and writes only the effect list; no scene state is touched and no
effect method is invoked. -/
def Camera.removeEffect {σ : Type} (c : Camera σ) (eff : CameraEffect σ) : Camera σ :=
  ⟨c.activeEffects.filter (fun e => e.ref != eff.ref)⟩

/-- One camera tick over a list of effects, in order: Array.filter visits
indices in ascending order, and the callback both mutates the scene state
and decides membership in the new list. -/
def tickList {σ : Type} (now delta : ℚ) :
    List (CameraEffect σ) → σ → List (CameraEffect σ) × σ
  | [], w => ([], w)
  | e :: es, w =>
    let r := processEffect now delta e w
    let rest := tickList now delta es r.2.2
    (if r.1 then r.2.1 :: rest.1 else rest.1, rest.2)

/-- Camera.update replaces the effect list by the filtered list; the clock
reading now stands for performance.now() during this tick. -/
def Camera.update {σ : Type} (now delta : ℚ) (c : Camera σ) (w : σ) : Camera σ × σ :=
  let r := tickList now delta c.activeEffects w
  (⟨r.1⟩, r.2)

/-- The life of one effect across successive registry ticks: on each tick it
is processed by the filter body; once dropped it is never processed
again. -/
def effectTrace {σ : Type} :
    List (ℚ × ℚ) → CameraEffect σ → σ → CameraEffect σ × σ
  | [], e, w => (e, w)
  | (now, delta) :: ts, e, w =>
    let r := processEffect now delta e w
    if r.1 then effectTrace ts r.2.1 r.2.2 else (r.2.1, r.2.2)

/-- A point in a PIXI container (models/Vector2). -/
structure Vector2 where
  x : ℚ
  y : ℚ
deriving DecidableEq

/-- The scene node fields read and written by the concrete effects. -/
structure Container where
  pivot : Vector2
  scale : Vector2
  angle : ℚ
  width : ℚ
  height : ℚ
deriving DecidableEq

/-- The overlay sprite used by the fade effect. -/
structure Sprite where
  width : ℚ
  height : ℚ
  alpha : ℚ
  tint : ℕ
deriving DecidableEq

/-
  Concrete effects. Each structure inlines the base-class fields it uses;
  the duration is kept as a rational here because the update methods divide
  by it. The withStamps helpers model the camera writing the two
  timestamps between construction and an update call.
-/

/-- ShakeEffect fields, as set by its constructor. -/
structure ShakeEffect where
  duration : ℚ
  startedTimeStamp : ℚ
  lastRanTimeStamp : ℚ
  intensity : ℚ
  initialPivotVector : Vector2

/-- The ShakeEffect constructor. -/
def ShakeEffect.make (container : Container) (duration intensity : ℚ) : ShakeEffect :=
  { duration := duration
    startedTimeStamp := 0
    lastRanTimeStamp := 0
    intensity := intensity
    initialPivotVector := ⟨container.pivot.x, container.pivot.y⟩ }

/-- ShakeEffect.update with the two Math.random() draws supplied as the
inputs r1 and r2. The source update returns nothing. -/
def ShakeEffect.update (e : ShakeEffect) (r1 r2 : ℚ) (c : Container) : Container :=
  { c with pivot := ⟨r1 * e.intensity, r2 * e.intensity⟩ }

/-- ShakeEffect.onEnd resets the pivot to the value captured at
construction. -/
def ShakeEffect.onEnd (e : ShakeEffect) (c : Container) : Container :=
  { c with pivot := ⟨e.initialPivotVector.x, e.initialPivotVector.y⟩ }

/-- PanEffect fields, as set by its constructor. -/
structure PanEffect where
  duration : ℚ
  startedTimeStamp : ℚ
  lastRanTimeStamp : ℚ
  coordinates : Vector2
  difference : Vector2
  xIsGreater : Bool
  yIsGreater : Bool

/-- The PanEffect constructor. -/
def PanEffect.make (container : Container) (duration : ℚ) (location : Vector2) : PanEffect :=
  { duration := duration
    startedTimeStamp := 0
    lastRanTimeStamp := 0
    coordinates := location
    xIsGreater := if location.x > container.pivot.x then true else false
    yIsGreater := if location.y > container.pivot.y then true else false
    difference := ⟨|location.x - container.pivot.x|, |location.y - container.pivot.y|⟩ }

/-- Timestamp stamping performed by the camera on a pan effect. -/
def PanEffect.withStamps (e : PanEffect) (st lr : ℚ) : PanEffect :=
  { e with startedTimeStamp := st, lastRanTimeStamp := lr }

/-- PanEffect.update. -/
def PanEffect.update (e : PanEffect) (c : Container) : Container × Option Bool :=
  let timeDiffPercentage := (e.lastRanTimeStamp - e.startedTimeStamp) / e.duration
  let timeDiffPercentageNegative := (e.duration - e.lastRanTimeStamp) / e.duration
  let xPanAmount := if e.xIsGreater then e.difference.x * timeDiffPercentage
    else e.difference.x * timeDiffPercentageNegative
  let yPanAmount := if e.yIsGreater then e.difference.y * timeDiffPercentage
    else e.difference.y * timeDiffPercentageNegative
  let c' := { c with pivot := ⟨xPanAmount, yPanAmount⟩ }
  let continueEffect : Option Bool :=
    if c'.pivot.x > e.coordinates.x - 5 ∧ c'.pivot.x < e.coordinates.x + 5 ∧
        c'.pivot.y > e.coordinates.y - 5 ∧ c'.pivot.y < e.coordinates.y + 5 then
      some false
    else
      none
  (c', continueEffect)

/-- RotateEffect fields, as set by its constructor. -/
structure RotateEffect where
  duration : ℚ
  startedTimeStamp : ℚ
  lastRanTimeStamp : ℚ
  angle : ℚ
  initialAngle : ℚ
  initialPivot : Vector2
  easingFn : ℚ → ℚ

/-- The RotateEffect constructor; when an initial pivot axis is 0 it also
recenters that pivot axis of the container to its middle, so the mutated
container is returned alongside the effect. -/
def RotateEffect.make (container : Container) (duration angle : ℚ)
    (easingFn : Option (ℚ → ℚ)) : RotateEffect × Container :=
  let e : RotateEffect :=
    { duration := duration
      startedTimeStamp := 0
      lastRanTimeStamp := 0
      angle := angle
      initialAngle := container.angle
      initialPivot := ⟨container.pivot.x, container.pivot.y⟩
      easingFn := match easingFn with | some f => f | none => fun t => t }
  let px := if container.pivot.x = 0 then container.width / 2 else container.pivot.x
  let py := if container.pivot.y = 0 then container.height / 2 else container.pivot.y
  (e, { container with pivot := ⟨px, py⟩ })

/-- Timestamp stamping performed by the camera on a rotate effect. -/
def RotateEffect.withStamps (e : RotateEffect) (st lr : ℚ) : RotateEffect :=
  { e with startedTimeStamp := st, lastRanTimeStamp := lr }

/-- RotateEffect.update. -/
def RotateEffect.update (e : RotateEffect) (c : Container) : Container × Option Bool :=
  let timeDiffPercentage := (e.lastRanTimeStamp - e.startedTimeStamp) / e.duration
  let percentageThroughAnimation := e.easingFn timeDiffPercentage
  let angleAmount := e.angle * percentageThroughAnimation
  let c' := { c with angle := e.initialAngle + angleAmount }
  let continueEffect : Option Bool := if c'.angle > e.angle then some false else none
  (c', continueEffect)

/-- FadeEffect fields, as set by its constructor. -/
structure FadeEffect where
  duration : ℚ
  startedTimeStamp : ℚ
  lastRanTimeStamp : ℚ
  color : ℕ
  opacity : ℚ
  easingFn : ℚ → ℚ
  isFadeOut : Bool
  initialOpacity : ℚ

/-- The FadeEffect constructor: it configures the filter sprite (dimensions
copied from the container, alpha set to 0, tint set to the target color),
then records the opacity the filter has at that point as the initial
opacity, and infers the direction by comparing the filter alpha with the
target opacity. The configured sprite is returned next to the effect; its
insertion as a child of the container has no further observable part in
the claims. -/
def FadeEffect.make (container : Container) (duration : ℚ) (filter : Sprite)
    (color : ℕ) (opacity : ℚ) (easingFn : Option (ℚ → ℚ)) : FadeEffect × Sprite :=
  let f' : Sprite := { filter with
    width := container.width
    height := container.height
    alpha := 0
    tint := color }
  ({ duration := duration
     startedTimeStamp := 0
     lastRanTimeStamp := 0
     color := color
     opacity := opacity
     easingFn := match easingFn with | some g => g | none => fun t => t
     isFadeOut := if f'.alpha > opacity then false else true
     initialOpacity := f'.alpha }, f')

/-- Timestamp stamping performed by the camera on a fade effect. -/
def FadeEffect.withStamps (e : FadeEffect) (st lr : ℚ) : FadeEffect :=
  { e with startedTimeStamp := st, lastRanTimeStamp := lr }

/-- FadeEffect.update. -/
def FadeEffect.update (e : FadeEffect) (s : Sprite) : Sprite × Option Bool :=
  let timeDiffPercentage := (e.lastRanTimeStamp - e.startedTimeStamp) / e.duration
  let percentageThroughAnimation := e.easingFn timeDiffPercentage
  let fadeAmount := 1 * percentageThroughAnimation
  let s' := { s with
    alpha := if e.isFadeOut then fadeAmount else e.initialOpacity - fadeAmount }
  let continueEffect : Option Bool :=
    if (e.isFadeOut = true ∧ s'.alpha ≥ e.opacity - 0.01) ∨
        (¬ e.isFadeOut = true ∧ s'.alpha ≤ e.opacity + 0.01) then
      some false
    else
      none
  (s', continueEffect)

/-- ZoomEffect fields, as set by its constructor. -/
structure ZoomEffect where
  duration : ℚ
  startedTimeStamp : ℚ
  lastRanTimeStamp : ℚ
  zoomLevel : Vector2
  easingFn : ℚ → ℚ
  initialZoomLevel : Vector2
  xIsGreater : Bool
  yIsGreater : Bool

/-- The ZoomEffect constructor. -/
def ZoomEffect.make (container : Container) (duration : ℚ) (zoomLevel : Vector2)
    (easingFn : Option (ℚ → ℚ)) : ZoomEffect :=
  { duration := duration
    startedTimeStamp := 0
    lastRanTimeStamp := 0
    zoomLevel := zoomLevel
    easingFn := match easingFn with | some f => f | none => fun t => t
    initialZoomLevel := ⟨container.scale.x, container.scale.y⟩
    xIsGreater := if zoomLevel.x > container.scale.x then true else false
    yIsGreater := if zoomLevel.y > container.scale.y then true else false }

/-- Timestamp stamping performed by the camera on a zoom effect. -/
def ZoomEffect.withStamps (e : ZoomEffect) (st lr : ℚ) : ZoomEffect :=
  { e with startedTimeStamp := st, lastRanTimeStamp := lr }

/-- ZoomEffect.update. -/
def ZoomEffect.update (e : ZoomEffect) (c : Container) : Container × Option Bool :=
  let timeDiffPercentage := (e.lastRanTimeStamp - e.startedTimeStamp) / e.duration
  let percentageThroughAnimation := e.easingFn timeDiffPercentage
  let xZoomAmount := e.zoomLevel.x * percentageThroughAnimation
  let yZoomAmount := e.zoomLevel.y * percentageThroughAnimation
  let sx := if e.xIsGreater then e.initialZoomLevel.x + xZoomAmount / 2
    else e.initialZoomLevel.x - xZoomAmount
  let sy := if e.yIsGreater then e.initialZoomLevel.y + yZoomAmount / 2
    else e.initialZoomLevel.y - yZoomAmount
  let c' := { c with scale := ⟨sx, sy⟩ }
  let continueEffect : Option Bool :=
    if c'.scale.x > e.zoomLevel.x - 0.01 ∧ c'.scale.x < e.zoomLevel.x + 0.01 ∧
        c'.scale.y > e.zoomLevel.y - 0.01 ∧ c'.scale.y < e.zoomLevel.y + 0.01 then
      some false
    else
      none
  (c', continueEffect)

/-- Linear interpolation from a toward b at fraction t; this is the notion
the specification uses when it speaks of interpolating a transform property
from its initial value toward a target. -/
def lerp (a b t : ℚ) : ℚ := a + (b - a) * t

/-
  Helper lemmas about the camera step.
-/

/-- The startedTimeStamp after stamping. -/
lemma stampStart_started {σ : Type} (now : ℚ) (e : CameraEffect σ) :
    (stampStart now e).startedTimeStamp
      = if e.startedTimeStamp = 0 then now else e.startedTimeStamp := by
  by_cases h : e.startedTimeStamp = 0 <;> simp [stampStart, h]

/-- Stamping the start does not touch lastRanTimeStamp. -/
lemma stampStart_lastRan {σ : Type} (now : ℚ) (e : CameraEffect σ) :
    (stampStart now e).lastRanTimeStamp = e.lastRanTimeStamp := by
  by_cases h : e.startedTimeStamp = 0 <;> simp [stampStart, h]

/-- Stamping the start does not touch the update method. -/
lemma stampStart_update {σ : Type} (now : ℚ) (e : CameraEffect σ) :
    (stampStart now e).update = e.update := by
  by_cases h : e.startedTimeStamp = 0 <;> simp [stampStart, h]

/-- Stamping the start does not touch the onEnd hook. -/
lemma stampStart_onEnd {σ : Type} (now : ℚ) (e : CameraEffect σ) :
    (stampStart now e).onEnd = e.onEnd := by
  by_cases h : e.startedTimeStamp = 0 <;> simp [stampStart, h]

/-- Stamping the start does not touch the options. -/
lemma stampStart_options {σ : Type} (now : ℚ) (e : CameraEffect σ) :
    (stampStart now e).options = e.options := by
  by_cases h : e.startedTimeStamp = 0 <;> simp [stampStart, h]

/-- The filter body written without local definitions. -/
lemma processEffect_eq {σ : Type} (now delta : ℚ) (e : CameraEffect σ) (w : σ) :
    processEffect now delta e w =
      if ((stampStart now e).update (stampStart now e).startedTimeStamp
          (stampStart now e).lastRanTimeStamp w delta).2 = some false then
        (false, stampStart now e,
         runOnEnd (stampStart now e)
           ((stampStart now e).update (stampStart now e).startedTimeStamp
             (stampStart now e).lastRanTimeStamp w delta).1)
      else
        if durationReached now { stampStart now e with lastRanTimeStamp := now } ||
            endConditionReached { stampStart now e with lastRanTimeStamp := now } delta then
          (false, { stampStart now e with lastRanTimeStamp := now },
           runOnEnd { stampStart now e with lastRanTimeStamp := now }
             ((stampStart now e).update (stampStart now e).startedTimeStamp
               (stampStart now e).lastRanTimeStamp w delta).1)
        else
          (true, { stampStart now e with lastRanTimeStamp := now },
           ((stampStart now e).update (stampStart now e).startedTimeStamp
             (stampStart now e).lastRanTimeStamp w delta).1) := rfl

/-- Two effects with the same onEnd hook clean up identically. -/
lemma runOnEnd_congr {σ : Type} {e₁ e₂ : CameraEffect σ} (h : e₁.onEnd = e₂.onEnd)
    (w : σ) : runOnEnd e₁ w = runOnEnd e₂ w := by
  unfold runOnEnd
  rw [h]

/-- Two effects with the same endCondition agree on the end check. -/
lemma endConditionReached_congr {σ : Type} {e₁ e₂ : CameraEffect σ}
    (h : e₁.options.endCondition = e₂.options.endCondition) (delta : ℚ) :
    endConditionReached e₁ delta = endConditionReached e₂ delta := by
  unfold endConditionReached
  rw [h]

/-- The effect object coming out of the filter body carries the stamped
start time. -/
lemma processEffect_started {σ : Type} (now delta : ℚ) (e : CameraEffect σ) (w : σ) :
    (processEffect now delta e w).2.1.startedTimeStamp
      = if e.startedTimeStamp = 0 then now else e.startedTimeStamp := by
  rw [processEffect_eq]
  split_ifs <;> simp_all [stampStart_started]

/-- Once the start stamp is nonzero it survives any number of further
ticks of the effect. -/
lemma effectTrace_started_ne {σ : Type} (ts : List (ℚ × ℚ)) (e : CameraEffect σ)
    (w : σ) (h : e.startedTimeStamp ≠ 0) :
    (effectTrace ts e w).1.startedTimeStamp = e.startedTimeStamp := by
  induction ts generalizing e w with
  | nil => rfl
  | cons p ts ih =>
    obtain ⟨now, delta⟩ := p
    have hs : (processEffect now delta e w).2.1.startedTimeStamp = e.startedTimeStamp := by
      rw [processEffect_started, if_neg h]
    simp only [effectTrace]
    by_cases hk : (processEffect now delta e w).1 = true
    · rw [if_pos hk, ih _ _ (by rw [hs]; exact h)]
      exact hs
    · rw [if_neg hk]
      exact hs

/-- Stamping the start commutes with replacing the options. -/
lemma stampStart_setOptions {σ : Type} (now : ℚ) (e : CameraEffect σ)
    (o : CameraEffectOptions) :
    stampStart now { e with options := o } = { stampStart now e with options := o } := by
  by_cases h : e.startedTimeStamp = 0 <;> simp [stampStart, h]

/-- A sample effect whose update requests termination, with scene state
Unit. -/
def sampleDropEff : CameraEffect Unit :=
  { ref := 0
    startedTimeStamp := 0
    lastRanTimeStamp := 0
    options := { duration := (0 : WithTop ℚ), endCondition := none }
    update := fun _ _ w _ => (w, some false)
    onEnd := none }

/-- A sample effect that always continues: update returns undefined, the
duration is Infinity and there is no end condition. -/
def sampleKeepEff : CameraEffect Unit :=
  { ref := 0
    startedTimeStamp := 0
    lastRanTimeStamp := 0
    options := { duration := ⊤, endCondition := none }
    update := fun _ _ w _ => (w, none)
    onEnd := none }

/-- A sample effect whose end condition returns the truthy number 1, which
is not the boolean true. -/
def sampleTruthyEff : CameraEffect Unit :=
  { ref := 1
    startedTimeStamp := 3
    lastRanTimeStamp := 0
    options := { duration := ((1000 : ℚ) : WithTop ℚ)
                 endCondition := some (fun _ => JSVal.num 1) }
    update := fun _ _ w _ => (w, some true)
    onEnd := none }

/-- Claim C1: on every registry tick the effects are processed in insertion
order, and for each effect: a zero startedTimeStamp is stamped with the
current time, then update(delta) runs; when update returns false the onEnd
hook (if present) runs and the effect is dropped with its lastRanTimeStamp
untouched and with its duration and endCondition never evaluated (the
outcome is the same for every possible options record); otherwise
lastRanTimeStamp is stamped with the current time and the effect is dropped
(running onEnd when present) exactly when the elapsed time since the
stamped start reaches the duration or the end condition evaluates to true,
and is kept otherwise. -/
theorem camera_tick_effect_lifecycle {σ : Type} (now delta : ℚ) (e : CameraEffect σ)
    (w : σ) (uw : σ × Option Bool)
    (huw : (stampStart now e).update (stampStart now e).startedTimeStamp
        (stampStart now e).lastRanTimeStamp w delta = uw) :
    (∀ es : List (CameraEffect σ), tickList now delta (e :: es) w =
        ((if (processEffect now delta e w).1 then
            (processEffect now delta e w).2.1 ::
              (tickList now delta es (processEffect now delta e w).2.2).1
          else (tickList now delta es (processEffect now delta e w).2.2).1),
         (tickList now delta es (processEffect now delta e w).2.2).2))
    ∧ (processEffect now delta e w).2.1.startedTimeStamp
        = (if e.startedTimeStamp = 0 then now else e.startedTimeStamp)
    ∧ (uw.2 = some false →
        processEffect now delta e w
            = (false, stampStart now e, runOnEnd (stampStart now e) uw.1)
        ∧ (processEffect now delta e w).2.1.lastRanTimeStamp = e.lastRanTimeStamp
        ∧ (∀ (d : WithTop ℚ) (ec : Option (ℚ → JSVal)),
            (processEffect now delta { e with options := ⟨d, ec⟩ } w).1 = false
            ∧ (processEffect now delta { e with options := ⟨d, ec⟩ } w).2.2
                = runOnEnd (stampStart now e) uw.1
            ∧ (processEffect now delta { e with options := ⟨d, ec⟩ } w).2.1.lastRanTimeStamp
                = e.lastRanTimeStamp))
    ∧ (uw.2 ≠ some false →
        processEffect now delta e w =
          (if durationReached now { stampStart now e with lastRanTimeStamp := now } ||
              endConditionReached { stampStart now e with lastRanTimeStamp := now } delta
           then (false, { stampStart now e with lastRanTimeStamp := now },
                 runOnEnd { stampStart now e with lastRanTimeStamp := now } uw.1)
           else (true, { stampStart now e with lastRanTimeStamp := now }, uw.1))) := by
  refine ⟨?_, ?_, ?_, ?_⟩
  · intro es
    rfl
  · exact processEffect_started now delta e w
  · intro h
    have hpe : processEffect now delta e w
        = (false, stampStart now e, runOnEnd (stampStart now e) uw.1) := by
      rw [processEffect_eq, huw, if_pos h]
    refine ⟨hpe, ?_, ?_⟩
    · rw [hpe]
      exact stampStart_lastRan now e
    · intro d ec
      have hs : stampStart now { e with options := ⟨d, ec⟩ }
          = { stampStart now e with options := ⟨d, ec⟩ } :=
        stampStart_setOptions now e ⟨d, ec⟩
      have hpe' : processEffect now delta { e with options := ⟨d, ec⟩ } w
          = (false, { stampStart now e with options := ⟨d, ec⟩ },
             runOnEnd { stampStart now e with options := ⟨d, ec⟩ } uw.1) := by
        rw [processEffect_eq, hs]
        dsimp only
        rw [huw, if_pos h]
      refine ⟨?_, ?_, ?_⟩
      · rw [hpe']
      · rw [hpe']
        exact runOnEnd_congr rfl uw.1
      · rw [hpe']
        exact stampStart_lastRan now e
  · intro h
    rw [processEffect_eq, huw, if_neg h]

/-- A closed instance of the lifecycle theorem: an update that returns
false drops the effect and the start stamp rule holds. -/
theorem camera_tick_effect_lifecycle_witness :
    (processEffect 5 1 sampleDropEff ()).1 = false
    ∧ (processEffect 5 1 sampleDropEff ()).2.1.startedTimeStamp = 5 := by
  have h := camera_tick_effect_lifecycle (σ := Unit) 5 1 sampleDropEff ()
    ((), some false) rfl
  constructor
  · rw [(h.2.2.1 rfl).1]
  · rw [h.2.1]
    simp [sampleDropEff]

/-- Claim C2 (amended): a freshly constructed effect has startedTimeStamp 0,
and provided the clock reading of the first tick that processes the effect
is nonzero, that tick stamps startedTimeStamp with the current time and no
later tick of the same effect ever changes it (the trace theorem quantifies
over every continuation of the tick sequence). -/
theorem startedTimeStamp_stamped_once {σ : Type} (e : CameraEffect σ) (w : σ)
    (now delta : ℚ) (ts : List (ℚ × ℚ))
    (h0 : e.startedTimeStamp = 0) (hpos : now ≠ 0) :
    (∀ (ref : ℕ) (o : Option CameraEffectOptionsArg)
        (u : ℚ → ℚ → σ → ℚ → σ × Option Bool) (oe : Option (σ → σ)),
        (CameraEffect.make ref o u oe).startedTimeStamp = 0)
    ∧ (effectTrace ((now, delta) :: ts) e w).1.startedTimeStamp = now := by
  constructor
  · intro _ _ _ _
    rfl
  · have hs : (processEffect now delta e w).2.1.startedTimeStamp = now := by
      rw [processEffect_started, if_pos h0]
    simp only [effectTrace]
    by_cases hk : (processEffect now delta e w).1 = true
    · rw [if_pos hk, effectTrace_started_ne _ _ _ (by rw [hs]; exact hpos)]
      exact hs
    · rw [if_neg hk]
      exact hs

/-- A closed instance of the previous theorem at positive tick times. -/
theorem startedTimeStamp_stamped_once_witness :
    sampleKeepEff.startedTimeStamp = 0
    ∧ (5 : ℚ) ≠ 0
    ∧ (effectTrace [((5 : ℚ), 1), (7, 1)] sampleKeepEff ()).1.startedTimeStamp = 5 := by
  refine ⟨rfl, by norm_num, ?_⟩
  exact (startedTimeStamp_stamped_once sampleKeepEff () 5 1 [(7, 1)] rfl
    (by norm_num)).2

/-- Claim C2 counterexample: when the first tick of an effect happens at
clock reading 0 (as under the fake timers the test suite of the repository
itself uses), the sentinel comparison startedTimeStamp === 0 fails to
record the first run, and a later tick overwrites startedTimeStamp: after
the first tick it is still 0, after a second tick at time 5 it is 5, so it
changed on a subsequent tick. -/
theorem startedTimeStamp_restamped_counterexample :
    (effectTrace [((0 : ℚ), 1)] sampleKeepEff ()).1.startedTimeStamp = 0
    ∧ (effectTrace [((0 : ℚ), 1), (5, 1)] sampleKeepEff ()).1.startedTimeStamp = 5
    ∧ (5 : ℚ) ≠ 0 := by
  refine ⟨?_, ?_, by norm_num⟩ <;> rfl

/-- An unbounded duration never makes the duration check fire. -/
lemma durationReached_of_top {σ : Type} (e : CameraEffect σ)
    (h : e.options.duration = ⊤) (now : ℚ) : durationReached now e = false := by
  simp [durationReached, h, top_le_iff]

/-- Claim C8: an effect built with no options object, or with an absent
duration field, gets options.duration = 0; and an effect whose duration is
unbounded is never removed by the elapsed-time-versus-duration check: its
removal on a tick forces either an update returning false or the end
condition evaluating to true. -/
theorem duration_defaulting_and_unbounded {σ : Type} :
    (∀ (ref : ℕ) (u : ℚ → ℚ → σ → ℚ → σ × Option Bool) (oe : Option (σ → σ)),
        (CameraEffect.make ref none u oe).options.duration = 0)
    ∧ (∀ (ref : ℕ) (ec : Option (ℚ → JSVal)) (u : ℚ → ℚ → σ → ℚ → σ × Option Bool)
        (oe : Option (σ → σ)),
        (CameraEffect.make ref (some ⟨none, ec⟩) u oe).options.duration = 0)
    ∧ (∀ (e : CameraEffect σ) (now : ℚ), e.options.duration = ⊤ →
        durationReached now e = false)
    ∧ (∀ (e : CameraEffect σ) (now delta : ℚ) (w : σ), e.options.duration = ⊤ →
        (processEffect now delta e w).1 = false →
        ((stampStart now e).update (stampStart now e).startedTimeStamp
            (stampStart now e).lastRanTimeStamp w delta).2 = some false
        ∨ endConditionReached e delta = true) := by
  refine ⟨?_, ?_, ?_, ?_⟩
  · intro _ _ _
    rfl
  · intro _ _ _ _
    rfl
  · intro e now h
    exact durationReached_of_top e h now
  · intro e now delta w htop hdrop
    by_cases hu : ((stampStart now e).update (stampStart now e).startedTimeStamp
        (stampStart now e).lastRanTimeStamp w delta).2 = some false
    · exact Or.inl hu
    · right
      rw [processEffect_eq, if_neg hu] at hdrop
      have hopt : ({ stampStart now e with lastRanTimeStamp := now } :
          CameraEffect σ).options = e.options := stampStart_options now e
      have hdr : durationReached now
          { stampStart now e with lastRanTimeStamp := now } = false :=
        durationReached_of_top _ (by rw [hopt, htop]) now
      have hcec : endConditionReached
          { stampStart now e with lastRanTimeStamp := now } delta
            = endConditionReached e delta :=
        endConditionReached_congr (by rw [hopt]) delta
      rw [hdr, hcec] at hdrop
      by_cases hec : endConditionReached e delta = true
      · exact hec
      · simp [hec] at hdrop

/-- A closed instance of the duration theorem: defaulting to 0 and an
Infinity duration never reached. -/
theorem duration_defaulting_and_unbounded_witness :
    (CameraEffect.make (σ := Unit) 0 none (fun _ _ w _ => (w, none)) none).options.duration = 0
    ∧ durationReached 5 sampleKeepEff = false := by
  refine ⟨(duration_defaulting_and_unbounded (σ := Unit)).1 0 _ _, ?_⟩
  exact (duration_defaulting_and_unbounded (σ := Unit)).2.2.1 sampleKeepEff 5 rfl

/-- Claim C9: on a tick where the update did not return false and the
duration is not reached, the effect is dropped exactly when the end
condition callback returns the boolean true; any other return value,
truthy or not, keeps the effect in the collection. -/
theorem endCondition_strict_true_required {σ : Type} (e : CameraEffect σ)
    (now delta : ℚ) (w : σ) (f : ℚ → JSVal)
    (hf : e.options.endCondition = some f)
    (hu : ((stampStart now e).update (stampStart now e).startedTimeStamp
        (stampStart now e).lastRanTimeStamp w delta).2 ≠ some false)
    (hd : durationReached now { stampStart now e with lastRanTimeStamp := now } = false) :
    ((processEffect now delta e w).1 = false ↔ f delta = JSVal.bool true) := by
  rw [processEffect_eq, if_neg hu]
  have hopt : ({ stampStart now e with lastRanTimeStamp := now } :
      CameraEffect σ).options = e.options := stampStart_options now e
  have hec : endConditionReached { stampStart now e with lastRanTimeStamp := now } delta
      = decide (f delta = JSVal.bool true) := by
    unfold endConditionReached
    rw [hopt, hf]
  rw [hd, hec]
  by_cases hft : f delta = JSVal.bool true
  · simp [hft]
  · simp [hft]

/-- A closed instance of the strict end condition theorem: a callback
returning the truthy number 1 does not remove the effect. -/
theorem endCondition_strict_true_required_witness :
    ((processEffect 4 1 sampleTruthyEff ()).1 = false ↔ JSVal.num 1 = JSVal.bool true)
    ∧ (processEffect 4 1 sampleTruthyEff ()).1 = true := by
  have h := endCondition_strict_true_required sampleTruthyEff 4 1 ()
    (fun _ => JSVal.num 1) rfl (by decide)
    (by simp only [durationReached, stampStart, sampleTruthyEff, WithTop.coe_le_coe]
        norm_num [WithTop.coe_le_coe])
  refine ⟨h, ?_⟩
  cases hb : (processEffect 4 1 sampleTruthyEff ()).1 with
  | false => exact absurd (h.mp hb) (by decide)
  | true => rfl

/-- A sample camera holding the two sample effects with refs 0 and 1. -/
def sampleCam : Camera Unit := ⟨[sampleKeepEff, sampleTruthyEff]⟩

/-- Claim C10: removeEffect replaces the effect list by the filter that
keeps exactly the entries whose reference differs from the argument, so it
removes every entry reference-identical to the argument, preserves the
relative order of the survivors (a sublist of the original list), keeps
every non-identical entry unchanged, and leaves the list unchanged when the
argument is absent; it runs no effect method and touches no scene state
(its result is a pure function of the effect list alone). -/
theorem removeEffect_characterization {σ : Type} (c : Camera σ) (eff : CameraEffect σ) :
    ((c.removeEffect eff).activeEffects
        = c.activeEffects.filter (fun e => e.ref != eff.ref))
    ∧ List.Sublist (c.removeEffect eff).activeEffects c.activeEffects
    ∧ (∀ x ∈ (c.removeEffect eff).activeEffects, x.ref ≠ eff.ref)
    ∧ (∀ x ∈ c.activeEffects, x.ref ≠ eff.ref → x ∈ (c.removeEffect eff).activeEffects)
    ∧ (∀ x ∈ (c.removeEffect eff).activeEffects, x ∈ c.activeEffects)
    ∧ ((∀ x ∈ c.activeEffects, x.ref ≠ eff.ref) →
        (c.removeEffect eff).activeEffects = c.activeEffects) := by
  refine ⟨rfl, ?_, ?_, ?_, ?_, ?_⟩
  · exact List.filter_sublist _
  · intro x hx
    have hpx := List.of_mem_filter hx
    simpa [bne_iff_ne] using hpx
  · intro x hx hne
    exact List.mem_filter.mpr ⟨hx, by simpa [bne_iff_ne] using hne⟩
  · intro x hx
    exact List.mem_of_mem_filter hx
  · intro hall
    apply List.filter_eq_self.mpr
    intro a ha
    simpa [bne_iff_ne] using hall a ha

/-- A closed instance of the removeEffect theorem on the sample camera. -/
theorem removeEffect_characterization_witness :
    List.Sublist (sampleCam.removeEffect sampleTruthyEff).activeEffects
      sampleCam.activeEffects
    ∧ (∀ x ∈ (sampleCam.removeEffect sampleTruthyEff).activeEffects,
        x.ref ≠ sampleTruthyEff.ref) := by
  have h := removeEffect_characterization sampleCam sampleTruthyEff
  exact ⟨h.2.1, h.2.2.1⟩

/-- A two-sided strict comparison band is an absolute value bound. -/
lemma gt_lt_band_iff (p t eps : ℚ) : (p > t - eps ∧ p < t + eps) ↔ |p - t| < eps := by
  rw [abs_sub_lt_iff]
  constructor
  · rintro ⟨h1, h2⟩
    constructor <;> linarith
  · rintro ⟨h1, h2⟩
    constructor <;> linarith

/-- Claim C7: whatever random draws the shake updates applied, and indeed
from any container state whatsoever, the onEnd hook of a shake effect
restores exactly the pivot captured at construction. -/
theorem shake_onEnd_restores_pivot (c0 : Container) (dur intensity : ℚ)
    (rs : List (ℚ × ℚ)) :
    (ShakeEffect.onEnd (ShakeEffect.make c0 dur intensity)
        (rs.foldl (fun c p => ShakeEffect.update (ShakeEffect.make c0 dur intensity)
          p.1 p.2 c) c0)).pivot = c0.pivot
    ∧ (∀ c : Container,
        (ShakeEffect.onEnd (ShakeEffect.make c0 dur intensity) c).pivot = c0.pivot) := by
  have hAll : ∀ c : Container,
      (ShakeEffect.onEnd (ShakeEffect.make c0 dur intensity) c).pivot = c0.pivot := by
    intro c
    rfl
  exact ⟨hAll _, hAll⟩

/-- A container at angle 0 used for the rotate counterexample. -/
def rotContainer : Container :=
  { pivot := ⟨10, 10⟩, scale := ⟨1, 1⟩, angle := 0, width := 100, height := 100 }

/-- The rotate container already at angle 90. -/
def rotContainer90 : Container := { rotContainer with angle := 90 }

/-- A rotate effect toward 45 degrees from angle 0, evaluated at the end of
its duration (elapsed fraction 1). -/
def rotCE1 : RotateEffect := (RotateEffect.make rotContainer 100 45 none).1.withStamps 0 100

/-- A rotate effect toward 45 degrees from angle 90, at its very first
update (elapsed fraction 0). -/
def rotCE2 : RotateEffect := (RotateEffect.make rotContainer90 100 45 none).1.withStamps 0 0

/-- Claim C4 (amended): a rotate update sets the angle to
initialAngle + angle times the eased elapsed fraction and returns false
exactly when the updated angle strictly exceeds the target (so the effect
stays active while the angle is at most the target); for a target smaller
than the initial angle the strict comparison already holds at any update
whose applied angle amount is nonnegative, so the effect terminates itself
immediately instead of running until duration expiry. -/
theorem rotate_update_characterization (e : RotateEffect) (c : Container) :
    ((RotateEffect.update e c).1.angle
        = e.initialAngle
          + e.angle * e.easingFn ((e.lastRanTimeStamp - e.startedTimeStamp) / e.duration))
    ∧ ((RotateEffect.update e c).2 = some false
        ↔ (RotateEffect.update e c).1.angle > e.angle)
    ∧ ((RotateEffect.update e c).2 = none
        ↔ ¬ (RotateEffect.update e c).1.angle > e.angle)
    ∧ (e.angle < e.initialAngle →
        0 ≤ e.angle * e.easingFn ((e.lastRanTimeStamp - e.startedTimeStamp) / e.duration) →
        (RotateEffect.update e c).2 = some false) := by
  have hang : (RotateEffect.update e c).1.angle
      = e.initialAngle
        + e.angle * e.easingFn ((e.lastRanTimeStamp - e.startedTimeStamp) / e.duration) := rfl
  have hiff : (RotateEffect.update e c).2 = some false
      ↔ (RotateEffect.update e c).1.angle > e.angle := by
    unfold RotateEffect.update
    dsimp only
    split_ifs with h <;> simp [h]
  have hnone : (RotateEffect.update e c).2 = none
      ↔ ¬ (RotateEffect.update e c).1.angle > e.angle := by
    unfold RotateEffect.update
    dsimp only
    split_ifs with h <;> simp [h]
  refine ⟨hang, hiff, hnone, ?_⟩
  intro h1 h2
  apply hiff.mpr
  rw [hang]
  linarith

/-- A closed instance of the rotate theorem: a rotate effect whose target
45 lies below the initial angle 90 returns false already on its first
update. -/
theorem rotate_update_characterization_witness :
    (RotateEffect.update rotCE2 rotContainer90).2 = some false := by
  have h := rotate_update_characterization rotCE2 rotContainer90
  apply h.2.2.2
  · norm_num [rotCE2, RotateEffect.make, RotateEffect.withStamps, rotContainer90,
      rotContainer]
  · norm_num [rotCE2, RotateEffect.make, RotateEffect.withStamps, rotContainer90,
      rotContainer]

/-- Claim C4 counterexample: first, when the updated angle exactly meets the
target (initial angle 0, target 45, elapsed fraction 1) the update does not
return false, against the claimed meets-or-exceeds termination; second, for
a target angle (45) smaller than the initial angle (90) the condition is
true at the very first update, so the effect self-terminates immediately
instead of never satisfying the condition and running until duration
expiry. -/
theorem rotate_claim_counterexample :
    ((RotateEffect.update rotCE1 rotContainer).1.angle = 45
      ∧ (RotateEffect.update rotCE1 rotContainer).2 = none)
    ∧ (rotCE2.angle < rotCE2.initialAngle
      ∧ (RotateEffect.update rotCE2 rotContainer90).2 = some false) := by
  refine ⟨⟨?_, ?_⟩, ⟨?_, ?_⟩⟩
  · norm_num [RotateEffect.update, rotCE1, RotateEffect.make, RotateEffect.withStamps,
      rotContainer]
  · norm_num [RotateEffect.update, rotCE1, RotateEffect.make, RotateEffect.withStamps,
      rotContainer]
  · norm_num [rotCE2, RotateEffect.make, RotateEffect.withStamps, rotContainer90,
      rotContainer]
  · norm_num [RotateEffect.update, rotCE2, RotateEffect.make, RotateEffect.withStamps,
      rotContainer90, rotContainer]

/-- A container whose pivot starts away from the origin, for the pan
counterexample. -/
def panContainer : Container :=
  { pivot := ⟨20, 0⟩, scale := ⟨1, 1⟩, angle := 0, width := 100, height := 100 }

/-- A container whose pivot starts at the origin. -/
def panContainer0 : Container :=
  { pivot := ⟨0, 0⟩, scale := ⟨1, 1⟩, angle := 0, width := 100, height := 100 }

/-- A pan effect toward (50, 0) built on the offset container, at its first
update (elapsed fraction 0). -/
def panCE : PanEffect := (PanEffect.make panContainer 100 ⟨50, 0⟩).withStamps 0 0

/-- Claim C3 (amended): a pan update sets each pivot axis to the absolute
construction-time distance to the target scaled by a fraction: the eased
elapsed fraction (lastRan - started) / duration on an axis whose target
exceeds the construction pivot (the direction flag fixed at construction),
and (duration - lastRan) / duration on the other axes; this coincides with
linear interpolation from the construction pivot toward the target only in
the special case of a construction pivot at the origin with positive
targets, where it is interpolation from 0; the update returns false exactly
when both pivot axes land strictly within 5 units of the target, whatever
the configured duration. -/
theorem pan_update_characterization (c0 : Container) (dur : ℚ) (loc : Vector2)
    (st lr : ℚ) (c : Container) :
    ((PanEffect.update ((PanEffect.make c0 dur loc).withStamps st lr) c).1.pivot.x
        = (if loc.x > c0.pivot.x then |loc.x - c0.pivot.x| * ((lr - st) / dur)
           else |loc.x - c0.pivot.x| * ((dur - lr) / dur)))
    ∧ ((PanEffect.update ((PanEffect.make c0 dur loc).withStamps st lr) c).1.pivot.y
        = (if loc.y > c0.pivot.y then |loc.y - c0.pivot.y| * ((lr - st) / dur)
           else |loc.y - c0.pivot.y| * ((dur - lr) / dur)))
    ∧ ((PanEffect.update ((PanEffect.make c0 dur loc).withStamps st lr) c).2 = some false
        ↔ (|(PanEffect.update ((PanEffect.make c0 dur loc).withStamps st lr) c).1.pivot.x
              - loc.x| < 5
           ∧ |(PanEffect.update ((PanEffect.make c0 dur loc).withStamps st lr) c).1.pivot.y
              - loc.y| < 5))
    ∧ (c0.pivot.x = 0 → c0.pivot.y = 0 → 0 < loc.x → 0 < loc.y →
        (PanEffect.update ((PanEffect.make c0 dur loc).withStamps st lr) c).1.pivot.x
            = lerp 0 loc.x ((lr - st) / dur)
        ∧ (PanEffect.update ((PanEffect.make c0 dur loc).withStamps st lr) c).1.pivot.y
            = lerp 0 loc.y ((lr - st) / dur)) := by
  have hx : (PanEffect.update ((PanEffect.make c0 dur loc).withStamps st lr) c).1.pivot.x
      = (if loc.x > c0.pivot.x then |loc.x - c0.pivot.x| * ((lr - st) / dur)
         else |loc.x - c0.pivot.x| * ((dur - lr) / dur)) := by
    by_cases hp : loc.x > c0.pivot.x <;>
      simp [PanEffect.update, PanEffect.make, PanEffect.withStamps, hp]
  have hy : (PanEffect.update ((PanEffect.make c0 dur loc).withStamps st lr) c).1.pivot.y
      = (if loc.y > c0.pivot.y then |loc.y - c0.pivot.y| * ((lr - st) / dur)
         else |loc.y - c0.pivot.y| * ((dur - lr) / dur)) := by
    by_cases hp : loc.y > c0.pivot.y <;>
      simp [PanEffect.update, PanEffect.make, PanEffect.withStamps, hp]
  have ht : (PanEffect.update ((PanEffect.make c0 dur loc).withStamps st lr) c).2
      = (if ((PanEffect.update ((PanEffect.make c0 dur loc).withStamps st lr) c).1.pivot.x
              > loc.x - 5
            ∧ (PanEffect.update ((PanEffect.make c0 dur loc).withStamps st lr) c).1.pivot.x
              < loc.x + 5
            ∧ (PanEffect.update ((PanEffect.make c0 dur loc).withStamps st lr) c).1.pivot.y
              > loc.y - 5
            ∧ (PanEffect.update ((PanEffect.make c0 dur loc).withStamps st lr) c).1.pivot.y
              < loc.y + 5)
         then some false else none) := rfl
  refine ⟨hx, hy, ?_, ?_⟩
  · rw [ht]
    split_ifs with h
    · constructor
      · intro _
        exact ⟨(gt_lt_band_iff _ _ _).mp ⟨h.1, h.2.1⟩,
               (gt_lt_band_iff _ _ _).mp ⟨h.2.2.1, h.2.2.2⟩⟩
      · intro _
        rfl
    · constructor
      · intro hc
        exact absurd hc (by simp)
      · rintro ⟨ha, hb⟩
        exfalso
        apply h
        have h1 := (gt_lt_band_iff _ _ _).mpr ha
        have h2 := (gt_lt_band_iff _ _ _).mpr hb
        exact ⟨h1.1, h1.2, h2.1, h2.2⟩
  · intro h0x h0y hlx hly
    constructor
    · rw [hx, h0x, if_pos (by simpa using hlx), lerp]
      rw [show |loc.x - 0| = loc.x from by rw [sub_zero]; exact abs_of_pos hlx]
      ring
    · rw [hy, h0y, if_pos (by simpa using hly), lerp]
      rw [show |loc.y - 0| = loc.y from by rw [sub_zero]; exact abs_of_pos hly]
      ring

/-- A closed instance of the pan theorem in the origin special case: from
pivot (0,0) toward (50,150) the pivot is interpolated linearly from 0. -/
theorem pan_update_characterization_witness :
    (PanEffect.update ((PanEffect.make panContainer0 100 ⟨50, 150⟩).withStamps 0 100)
        panContainer0).1.pivot.x = lerp 0 50 ((100 - 0) / 100)
    ∧ (PanEffect.update ((PanEffect.make panContainer0 100 ⟨50, 150⟩).withStamps 0 100)
        panContainer0).1.pivot.y = lerp 0 150 ((100 - 0) / 100) := by
  have h := pan_update_characterization panContainer0 100 ⟨50, 150⟩ 0 100 panContainer0
  exact h.2.2.2 rfl rfl (by norm_num) (by norm_num)

/-- Claim C3 counterexample: on a container whose pivot at construction is
(20, 0) with target (50, 0), the first pan update (elapsed fraction 0) sets
the pivot x to 0, whereas linear interpolation from the construction pivot
toward the target would give 20 at fraction 0; the update therefore does
not set the pivot to that interpolation. -/
theorem pan_not_lerp_counterexample :
    (PanEffect.update panCE panContainer).1.pivot.x = 0
    ∧ lerp panContainer.pivot.x 50
        ((panCE.lastRanTimeStamp - panCE.startedTimeStamp) / panCE.duration) = 20
    ∧ (0 : ℚ) ≠ 20 := by
  refine ⟨?_, ?_, by norm_num⟩
  · norm_num [PanEffect.update, panCE, PanEffect.make, PanEffect.withStamps, panContainer]
  · norm_num [lerp, panCE, PanEffect.make, PanEffect.withStamps, panContainer]

/-- A container for the fade and zoom samples. -/
def fadeC : Container :=
  { pivot := ⟨0, 0⟩, scale := ⟨1, 1⟩, angle := 0, width := 800, height := 600 }

/-- A sprite handed to the fade constructor with a nonzero incoming alpha,
which the constructor overwrites. -/
def fadeSprite : Sprite := { width := 10, height := 10, alpha := 1 / 2, tint := 123 }

/-- A fade effect toward color 0 and opacity 1, evaluated at the end of its
duration (elapsed fraction 1). -/
def fadeEff : FadeEffect := (FadeEffect.make fadeC 2000 fadeSprite 0 1 none).1.withStamps 0 2000

/-- Claim C5: the fade constructor sets the overlay tint to the configured
color and the overlay alpha to 0, records that alpha as the initial
opacity, and infers the direction by comparing the target opacity with the
initial opacity; every update leaves the tint untouched (so it stays the
configured color for the whole life of the effect) and moves the alpha
away from the initial opacity by the eased elapsed fraction, in the
direction of the target opacity whenever the eased fraction is nonnegative;
and an update whose resulting alpha lands within 0.01 of the target opacity
returns false. -/
theorem fade_effect_characterization (c0 : Container) (dur : ℚ) (f0 : Sprite)
    (color : ℕ) (op : ℚ) (ef : Option (ℚ → ℚ)) :
    ((FadeEffect.make c0 dur f0 color op ef).2.tint = color
      ∧ (FadeEffect.make c0 dur f0 color op ef).2.alpha = 0
      ∧ (FadeEffect.make c0 dur f0 color op ef).1.initialOpacity
          = (FadeEffect.make c0 dur f0 color op ef).2.alpha
      ∧ ((FadeEffect.make c0 dur f0 color op ef).1.isFadeOut = false
          ↔ (FadeEffect.make c0 dur f0 color op ef).1.initialOpacity > op))
    ∧ (∀ (e : FadeEffect) (s : Sprite), (FadeEffect.update e s).1.tint = s.tint)
    ∧ (∀ (e : FadeEffect) (s : Sprite),
        (FadeEffect.update e s).1.alpha
          = (if e.isFadeOut = true
             then 1 * e.easingFn ((e.lastRanTimeStamp - e.startedTimeStamp) / e.duration)
             else e.initialOpacity
               - 1 * e.easingFn ((e.lastRanTimeStamp - e.startedTimeStamp) / e.duration)))
    ∧ (∀ (e : FadeEffect) (s : Sprite),
        e.initialOpacity = 0 →
        (e.isFadeOut = false ↔ e.initialOpacity > e.opacity) →
        0 ≤ e.easingFn ((e.lastRanTimeStamp - e.startedTimeStamp) / e.duration) →
        0 ≤ ((FadeEffect.update e s).1.alpha - e.initialOpacity)
            * (e.opacity - e.initialOpacity))
    ∧ (∀ (e : FadeEffect) (s : Sprite),
        |(FadeEffect.update e s).1.alpha - e.opacity| ≤ 0.01 →
        (FadeEffect.update e s).2 = some false) := by
  have halpha : ∀ (e : FadeEffect) (s : Sprite),
      (FadeEffect.update e s).1.alpha
        = (if e.isFadeOut = true
           then 1 * e.easingFn ((e.lastRanTimeStamp - e.startedTimeStamp) / e.duration)
           else e.initialOpacity
             - 1 * e.easingFn ((e.lastRanTimeStamp - e.startedTimeStamp) / e.duration)) :=
    fun e s => rfl
  refine ⟨⟨rfl, rfl, rfl, ?_⟩, fun e s => rfl, halpha, ?_, ?_⟩
  · by_cases h : (0 : ℚ) > op <;> simp [FadeEffect.make, h]
  · intro e s h0 hdir hpct
    rw [halpha, h0]
    by_cases hf : e.isFadeOut = true
    · have hop : ¬ e.initialOpacity > e.opacity := by
        intro hgt
        rw [hdir.mpr hgt] at hf
        exact absurd hf (by simp)
      rw [h0] at hop
      rw [if_pos hf]
      have hopnn : (0 : ℚ) ≤ e.opacity := not_lt.mp hop
      nlinarith [mul_nonneg hpct hopnn]
    · have hop : e.initialOpacity > e.opacity := hdir.mp (by
        cases hb : e.isFadeOut with
        | false => rfl
        | true => exact absurd hb hf)
      rw [h0] at hop
      rw [if_neg hf]
      nlinarith [mul_nonneg hpct (by linarith : (0 : ℚ) ≤ -e.opacity)]
  · intro e s habs
    have h2 : (FadeEffect.update e s).2
        = (if ((e.isFadeOut = true
                ∧ (FadeEffect.update e s).1.alpha ≥ e.opacity - 0.01)
              ∨ (¬ e.isFadeOut = true
                ∧ (FadeEffect.update e s).1.alpha ≤ e.opacity + 0.01))
           then some false else none) := rfl
    have hband := abs_sub_le_iff.mp habs
    have hcond : (e.isFadeOut = true
          ∧ (FadeEffect.update e s).1.alpha ≥ e.opacity - 0.01)
        ∨ (¬ e.isFadeOut = true
          ∧ (FadeEffect.update e s).1.alpha ≤ e.opacity + 0.01) := by
      by_cases hf : e.isFadeOut = true
      · exact Or.inl ⟨hf, by linarith [hband.1, hband.2]⟩
      · exact Or.inr ⟨hf, by linarith [hband.1, hband.2]⟩
    rw [h2, if_pos hcond]

/-- A closed instance of the fade theorem: at the end of its duration the
sample fade effect has brought the alpha to the target opacity 1 and the
update returns false. -/
theorem fade_effect_characterization_witness :
    (FadeEffect.update fadeEff fadeSprite).2 = some false := by
  have h := fade_effect_characterization fadeC 2000 fadeSprite 0 1 none
  apply h.2.2.2.2 fadeEff fadeSprite
  norm_num [FadeEffect.update, FadeEffect.make, FadeEffect.withStamps, fadeEff, fadeC,
    fadeSprite]

/-- Claim C6: on an axis where the target zoom level exceeds the initial
level the zoom update sets the scale to initial plus half the product of
the target level and the eased fraction, while on an axis where it does
not, the scale is set to initial minus that product unhalved; the update
returns false exactly when both scale axes land strictly within 0.01 of
the target levels. -/
theorem zoom_update_characterization (c0 : Container) (dur : ℚ) (z : Vector2)
    (ef : Option (ℚ → ℚ)) (st lr : ℚ) (c : Container) :
    (z.x > c0.scale.x →
        (ZoomEffect.update ((ZoomEffect.make c0 dur z ef).withStamps st lr) c).1.scale.x
          = c0.scale.x
            + z.x * (ZoomEffect.make c0 dur z ef).easingFn ((lr - st) / dur) / 2)
    ∧ (¬ z.x > c0.scale.x →
        (ZoomEffect.update ((ZoomEffect.make c0 dur z ef).withStamps st lr) c).1.scale.x
          = c0.scale.x
            - z.x * (ZoomEffect.make c0 dur z ef).easingFn ((lr - st) / dur))
    ∧ (z.y > c0.scale.y →
        (ZoomEffect.update ((ZoomEffect.make c0 dur z ef).withStamps st lr) c).1.scale.y
          = c0.scale.y
            + z.y * (ZoomEffect.make c0 dur z ef).easingFn ((lr - st) / dur) / 2)
    ∧ (¬ z.y > c0.scale.y →
        (ZoomEffect.update ((ZoomEffect.make c0 dur z ef).withStamps st lr) c).1.scale.y
          = c0.scale.y
            - z.y * (ZoomEffect.make c0 dur z ef).easingFn ((lr - st) / dur))
    ∧ ((ZoomEffect.update ((ZoomEffect.make c0 dur z ef).withStamps st lr) c).2 = some false
        ↔ (|(ZoomEffect.update ((ZoomEffect.make c0 dur z ef).withStamps st lr) c).1.scale.x
              - z.x| < 0.01
           ∧ |(ZoomEffect.update ((ZoomEffect.make c0 dur z ef).withStamps st lr) c).1.scale.y
              - z.y| < 0.01)) := by
  have ht : (ZoomEffect.update ((ZoomEffect.make c0 dur z ef).withStamps st lr) c).2
      = (if ((ZoomEffect.update ((ZoomEffect.make c0 dur z ef).withStamps st lr) c).1.scale.x
              > z.x - 0.01
            ∧ (ZoomEffect.update ((ZoomEffect.make c0 dur z ef).withStamps st lr) c).1.scale.x
              < z.x + 0.01
            ∧ (ZoomEffect.update ((ZoomEffect.make c0 dur z ef).withStamps st lr) c).1.scale.y
              > z.y - 0.01
            ∧ (ZoomEffect.update ((ZoomEffect.make c0 dur z ef).withStamps st lr) c).1.scale.y
              < z.y + 0.01)
         then some false else none) := rfl
  refine ⟨?_, ?_, ?_, ?_, ?_⟩
  · intro hp
    simp [ZoomEffect.update, ZoomEffect.make, ZoomEffect.withStamps, hp]
  · intro hp
    simp [ZoomEffect.update, ZoomEffect.make, ZoomEffect.withStamps, hp]
  · intro hp
    simp [ZoomEffect.update, ZoomEffect.make, ZoomEffect.withStamps, hp]
  · intro hp
    simp [ZoomEffect.update, ZoomEffect.make, ZoomEffect.withStamps, hp]
  · rw [ht]
    split_ifs with h
    · constructor
      · intro _
        exact ⟨(gt_lt_band_iff _ _ _).mp ⟨h.1, h.2.1⟩,
               (gt_lt_band_iff _ _ _).mp ⟨h.2.2.1, h.2.2.2⟩⟩
      · intro _
        rfl
    · constructor
      · intro hc
        exact absurd hc (by simp)
      · rintro ⟨ha, hb⟩
        exfalso
        apply h
        have h1 := (gt_lt_band_iff _ _ _).mpr ha
        have h2 := (gt_lt_band_iff _ _ _).mpr hb
        exact ⟨h1.1, h1.2, h2.1, h2.2⟩

/-- A closed instance of the zoom theorem: zooming in from scale 1 toward
level 2, at elapsed fraction one half, the scale reaches
1 + 2 times one half divided by 2 = 3/2 (the halved positive-direction
increment). -/
theorem zoom_update_characterization_witness :
    (ZoomEffect.update ((ZoomEffect.make fadeC 2000 ⟨2, 2⟩ none).withStamps 0 1000)
        fadeC).1.scale.x = 3 / 2 := by
  have h := zoom_update_characterization fadeC 2000 ⟨2, 2⟩ none 0 1000 fadeC
  have hx := h.1 (by norm_num [fadeC])
  rw [hx]
  norm_num [fadeC, ZoomEffect.make]

/-- The sample fade effect at its first camera update: startedTimeStamp has
just been stamped with now = 100 while lastRanTimeStamp is still 0, so the
elapsed fraction (0 - 100) / 2000 is negative. -/
def fadeEffFirst : FadeEffect :=
  (FadeEffect.make fadeC 2000 fadeSprite 0 1 none).1.withStamps 100 0

/-- Claim C5 counterexample: on the first update of a fade effect the
camera has stamped startedTimeStamp with a positive clock reading while
lastRanTimeStamp is still 0, so the elapsed fraction is negative even with
the default identity easing; the update then sets the overlay alpha to
-(1/20), strictly below the initial opacity 0 while the target opacity 1
lies above it, so this update moves the opacity away from the target, not
toward it. -/
theorem fade_first_update_moves_away_counterexample :
    (FadeEffect.update fadeEffFirst fadeSprite).1.alpha = -(1 / 20)
    ∧ fadeEffFirst.initialOpacity = 0
    ∧ fadeEffFirst.opacity = 1
    ∧ ((FadeEffect.update fadeEffFirst fadeSprite).1.alpha - fadeEffFirst.initialOpacity)
        * (fadeEffFirst.opacity - fadeEffFirst.initialOpacity) < 0 := by
  refine ⟨?_, rfl, rfl, ?_⟩
  · norm_num [FadeEffect.update, FadeEffect.make, FadeEffect.withStamps, fadeEffFirst,
      fadeC, fadeSprite]
  · norm_num [FadeEffect.update, FadeEffect.make, FadeEffect.withStamps, fadeEffFirst,
      fadeC, fadeSprite]
